import Mathlib

/-!
A shallow embedding of the clox single-pass bytecode compiler
(`src/compiler.c`) in Lean 4, together with theorems settling the claims
about its specification.

Modelling conventions:
* The scanner (`scanner.c`, not part of this repository's sources) is
  abstracted away: compilation consumes an explicit list of `Token`s, and
  once the list is exhausted the model keeps producing `EOF` tokens, just
  as `scanToken` does at end of input.
* The chunk writer (`chunk.c`, not part of this repository's sources) is
  modelled from the spec: `write_byte` appends a byte to the chunk's code
  array and `add_constant` appends a value to the constant pool and
  returns its index.
* Opcodes are a symbolic inductive type (their numeric values live in the
  absent `chunk.h`); a chunk's code is a list of bytes, each byte being
  either an opcode or a plain operand byte.
* The mutually recursive parser functions take an explicit fuel argument;
  fuel `0` returns the state unchanged.  All theorems either quantify over
  the fuel or use a concrete fuel large enough for the input at hand.
* Numeric literals keep their source lexeme (the conversion `strtod` is
  external libc behaviour and irrelevant to every claim).
-/

/-- Token kinds, exactly the set in the scanner contract (spec §6). -/
inductive TokenType where
  | LEFT_PAREN | RIGHT_PAREN | LEFT_BRACE | RIGHT_BRACE
  | COMMA | DOT | MINUS | PLUS | SEMICOLON | SLASH | STAR
  | BANG | BANG_EQUAL | EQUAL | EQUAL_EQUAL
  | GREATER | GREATER_EQUAL | LESS | LESS_EQUAL
  | IDENTIFIER | STRING | NUMBER
  | AND | CLASS | ELSE | FALSE | FOR | FUN | IF | NIL | OR
  | PRINT | RETURN | SUPER | THIS | TRUE | VAR | WHILE
  | ERROR | EOF
deriving DecidableEq, Repr

/-- A scanner token: kind, lexeme and source line. -/
structure Token where
  ttype : TokenType
  lexeme : String
  line : Nat
deriving DecidableEq, Repr

/-- The opcode set emitted by the compiler (spec §6). -/
inductive OpCode where
  | OP_CONSTANT | OP_NIL | OP_TRUE | OP_FALSE | OP_POP
  | OP_GET_LOCAL | OP_SET_LOCAL | OP_GET_UPVALUE | OP_SET_UPVALUE
  | OP_GET_GLOBAL | OP_DEFINE_GLOBAL | OP_SET_GLOBAL
  | OP_GET_PROPERTY | OP_SET_PROPERTY | OP_GET_SUPER
  | OP_EQUAL | OP_GREATER | OP_LESS
  | OP_ADD | OP_SUBTRACT | OP_MULTIPLY | OP_DIVIDE
  | OP_NOT | OP_NEGATE | OP_PRINT
  | OP_JUMP | OP_JUMP_IF_FALSE | OP_LOOP
  | OP_CALL | OP_INVOKE | OP_SUPER_INVOKE | OP_CLOSURE
  | OP_CLOSE_UPVALUE | OP_RETURN
  | OP_CLASS | OP_INHERIT | OP_METHOD
deriving DecidableEq, Repr

/-- One byte of a chunk's code array: an opcode byte or an operand byte. -/
inductive Instr where
  | op (o : OpCode)
  | arg (n : Nat)
deriving DecidableEq, Repr

/-- The precedence ladder (`Precedence` enum). -/
inductive Precedence where
  | PREC_NONE | PREC_ASSIGNMENT | PREC_OR | PREC_AND
  | PREC_EQUALITY | PREC_COMPARISON | PREC_TERM | PREC_FACTOR
  | PREC_UNARY | PREC_CALL | PREC_PRIMARY
deriving DecidableEq, Repr

/-- Numeric level of a precedence (the underlying C enum value). -/
def pnat : Precedence → Nat
  | .PREC_NONE => 0
  | .PREC_ASSIGNMENT => 1
  | .PREC_OR => 2
  | .PREC_AND => 3
  | .PREC_EQUALITY => 4
  | .PREC_COMPARISON => 5
  | .PREC_TERM => 6
  | .PREC_FACTOR => 7
  | .PREC_UNARY => 8
  | .PREC_CALL => 9
  | .PREC_PRIMARY => 10

/-- `(Precedence)(rule->precedence + 1)`, used by `binary`. -/
def psucc : Precedence → Precedence
  | .PREC_NONE => .PREC_ASSIGNMENT
  | .PREC_ASSIGNMENT => .PREC_OR
  | .PREC_OR => .PREC_AND
  | .PREC_AND => .PREC_EQUALITY
  | .PREC_EQUALITY => .PREC_COMPARISON
  | .PREC_COMPARISON => .PREC_TERM
  | .PREC_TERM => .PREC_FACTOR
  | .PREC_FACTOR => .PREC_UNARY
  | .PREC_UNARY => .PREC_CALL
  | .PREC_CALL => .PREC_PRIMARY
  | .PREC_PRIMARY => .PREC_PRIMARY

/-- `FunctionType` enum. -/
inductive FunctionType where
  | TYPE_FUNCTION | TYPE_INITIALIZER | TYPE_METHOD | TYPE_SCRIPT
deriving DecidableEq, Repr

/-- A local variable record (`Local`): name token, scope depth
(`-1` = declared but not yet initialized), capture flag. -/
structure Local where
  name : Token
  depth : Int
  isCaptured : Bool
deriving DecidableEq, Repr

/-- An upvalue descriptor (`Upvalue`). -/
structure Upvalue where
  index : Nat
  isLocal : Bool
deriving DecidableEq, Repr

/-- A runtime value as far as the compiler's constant pool is concerned:
number literals (kept as their lexeme; `strtod` is external), strings, and
function objects (`ObjFunction`: name, arity, upvalue count, chunk). -/
inductive Value where
  | num (lexeme : String)
  | str (s : String)
  | fn (name : Option String) (arity : Nat) (upvalueCount : Nat)
       (code : List Instr) (constants : List Value)

/-- A compiler frame (`Compiler` merged with its in-progress
`ObjFunction`): the chunk being written, function name/arity, the locals
stack (most recently added local first, so list position `k` is slot
`locals.length - 1 - k`), the upvalue array (insertion order, so list
position = upvalue index) and the scope depth.  The `enclosing` chain is
represented by the position in `St.comps`. -/
structure Comp where
  fname : Option String
  arity : Nat
  ftype : FunctionType
  locals : List Local
  upvalues : List Upvalue
  scopeDepth : Int
  code : List Instr
  constants : List Value

/-- A class scope (`ClassCompiler`); the chain lives in `St.classes`. -/
structure ClassC where
  name : Token
  hasSuperclass : Bool

/-- One reported error: the token it was attributed to and the message. -/
structure ErrRec where
  tok : Token
  msg : String
deriving DecidableEq, Repr

/-- The complete compilation state: parser, remaining tokens, accumulated
errors, the chain of compiler frames (innermost first) and the chain of
class scopes (innermost first). -/
structure St where
  toks : List Token
  prev : Token
  cur : Token
  hadError : Bool
  panicMode : Bool
  errors : List ErrRec
  comps : List Comp
  classes : List ClassC

/-- The token `scanToken` produces at (and beyond) end of input. -/
def eofTok : Token := ⟨.EOF, "", 0⟩

/-- Placeholder for uninitialized parser token fields at `compile` entry. -/
def dTok : Token := ⟨.EOF, "", 0⟩

/-- Default frame, used only to totalize head access on `St.comps`. -/
def dComp : Comp :=
  ⟨none, 0, .TYPE_SCRIPT, [], [], 0, [], []⟩

/-- The current (innermost) compiler frame. -/
def curComp (st : St) : Comp := st.comps.headD dComp

/-- Update the current (innermost) compiler frame. -/
def withComp (f : Comp → Comp) (st : St) : St :=
  { st with comps := match st.comps with
                     | [] => []
                     | c :: r => f c :: r }

-- Error message strings (exactly as in `compiler.c`).
def msgSelfInit : String := "Can't read local variable in it's own initializer."
def msgInvalidAssign : String := "Invalid assignment target."
def msgTooManyLocals : String := "Too many local variables in function."
def msgTooManyUpvalues : String := "Too many closure variables in function."
def msgTooManyConsts : String := "Too many constants in one chunk."
def msgExpectExpr : String := "Expect expression."
def msgAlreadyVar : String := "Already variable with this name in this scope."

/-- `errorAt`: in panic mode reports nothing; otherwise enters panic mode,
records the error and sets `hadError`. -/
def errorAt (tok : Token) (msg : String) (st : St) : St :=
  if st.panicMode then st
  else { st with panicMode := true, hadError := true,
                 errors := st.errors ++ [⟨tok, msg⟩] }

/-- `error`: report at the previous token. -/
def error (msg : String) (st : St) : St := errorAt st.prev msg st

/-- `errorAtCurrent`: report at the current token. -/
def errorAtCurrent (msg : String) (st : St) : St := errorAt st.cur msg st

/-- The scan loop inside `advance`: pull tokens, reporting and skipping
`ERROR` tokens; an exhausted list yields `EOF` forever. -/
def advGo (st : St) : List Token → St
  | [] => { st with cur := eofTok, toks := [] }
  | t :: ts =>
    if t.ttype = .ERROR then advGo (errorAt t t.lexeme st) ts
    else { st with cur := t, toks := ts }

/-- `advance`: previous := current, then pull the next non-error token. -/
def advance (st : St) : St := advGo { st with prev := st.cur } st.toks

/-- `consume`: advance if the current token has the wanted kind, else
report `msg` at the current token. -/
def consume (t : TokenType) (msg : String) (st : St) : St :=
  if st.cur.ttype = t then advance st else errorAtCurrent msg st

/-- `check`. -/
def check (t : TokenType) (st : St) : Bool := st.cur.ttype = t

/-- `match`: conditional advance, reporting whether it advanced. -/
def matchTok (t : TokenType) (st : St) : Bool × St :=
  if st.cur.ttype = t then (true, advance st) else (false, st)

/-- `emitByte` (via `writeChunk` on the current chunk). -/
def emitByte (b : Instr) (st : St) : St :=
  withComp (fun c => { c with code := c.code ++ [b] }) st

/-- `emitBytes`. -/
def emitBytes (b1 b2 : Instr) (st : St) : St := emitByte b2 (emitByte b1 st)

/-- `emitReturn`: the implicit return sequence; initializers reload
slot 0 (`this`) instead of pushing nil. -/
def emitReturn (st : St) : St :=
  let st :=
    if (curComp st).ftype = .TYPE_INITIALIZER then
      emitBytes (.op .OP_GET_LOCAL) (.arg 0) st
    else
      emitByte (.op .OP_NIL) st
  emitByte (.op .OP_RETURN) st

/-- `makeConstant`: `addConstant` (modelled from the spec's chunk
contract: append the value, return its index) followed by the `u8` range
check. -/
def makeConstant (v : Value) (st : St) : Nat × St :=
  let idx := (curComp st).constants.length
  let st := withComp (fun c => { c with constants := c.constants ++ [v] }) st
  if idx > 255 then (0, error msgTooManyConsts st) else (idx, st)

/-- `emitConstant`. -/
def emitConstant (v : Value) (st : St) : St :=
  let (idx, st) := makeConstant v st
  emitBytes (.op .OP_CONSTANT) (.arg idx) st

/-- `emitJump`: opcode plus two placeholder bytes; returns the offset of
the placeholder. -/
def emitJump (o : OpCode) (st : St) : Nat × St :=
  let st := emitByte (.op o) st
  let st := emitBytes (.arg 255) (.arg 255) st
  ((curComp st).code.length - 2, st)

/-- `patchJump`: back-patch a forward jump's two offset bytes
(big-endian), checking the 16-bit bound. -/
def patchJump (offset : Nat) (st : St) : St :=
  let jump := (curComp st).code.length - offset - 2
  let st := if jump > 65535 then error ("Too much code to jump over.") st else st
  withComp (fun c =>
    { c with code := (c.code.set offset (.arg ((jump >>> 8) &&& 255))).set
                       (offset + 1) (.arg (jump &&& 255)) }) st

/-- `emitLoop`: backward jump to `loopStart`. -/
def emitLoop (loopStart : Nat) (st : St) : St :=
  let st := emitByte (.op .OP_LOOP) st
  let offset := (curComp st).code.length - loopStart + 2
  let st := if offset > 65535 then error ("Loop body too large.") st else st
  emitBytes (.arg ((offset >>> 8) &&& 255)) (.arg (offset &&& 255)) st

/-- `identifiersEqual`: same length and bytes, i.e. equal lexemes. -/
def identifiersEqual (a b : Token) : Bool := a.lexeme = b.lexeme

/-- `identifierConstant`: intern the token's lexeme in the constant pool. -/
def identifierConstant (name : Token) (st : St) : Nat × St :=
  makeConstant (.str name.lexeme) st

/-- `syntheticToken` (only start/length are set in C; the kind is never
read by any consumer). -/
def syntheticToken (text : String) : Token := ⟨.IDENTIFIER, text, 0⟩

/-- The scan of `resolveLocal`: walk the locals from the top of the stack
down, returning the first lexeme match (position from the top) together
with the matched local. -/
def lookupLocal (name : Token) : List Local → Option (Nat × Local)
  | [] => none
  | l :: rest =>
    if identifiersEqual name l.name then some (0, l)
    else match lookupLocal name rest with
         | some (k, l') => some (k + 1, l')
         | none => none

/-- `resolveLocal`: slot index of the name in `c`'s locals, or `-1`;
reading a local still at depth `-1` reports the self-initializer error. -/
def resolveLocal (c : Comp) (name : Token) (st : St) : Int × St :=
  match lookupLocal name c.locals with
  | some (k, l) =>
    let st := if l.depth = -1 then error msgSelfInit st else st
    (Int.ofNat (c.locals.length - 1 - k), st)
  | none => (-1, st)

/-- The dedup scan of `addUpvalue`: index of the first matching
`(index, isLocal)` descriptor. -/
def findUp (index : Nat) (isLocal : Bool) : List Upvalue → Option Nat
  | [] => none
  | u :: rest =>
    if u.index = index ∧ u.isLocal = isLocal then some 0
    else match findUp index isLocal rest with
         | some k => some (k + 1)
         | none => none

/-- `addUpvalue`: reuse a matching descriptor, else bounds-check and
append; returns the upvalue index. -/
def addUpvalue (c : Comp) (index : Nat) (isLocal : Bool) (st : St) :
    Int × Comp × St :=
  match findUp index isLocal c.upvalues with
  | some i => (Int.ofNat i, c, st)
  | none =>
    if c.upvalues.length = 256 then
      (0, c, error msgTooManyUpvalues st)
    else
      (Int.ofNat c.upvalues.length,
       { c with upvalues := c.upvalues ++ [⟨index, isLocal⟩] }, st)

/-- Set the `isCaptured` flag of the local in slot `slot` (slot numbering
from the bottom of the stack, as in the C array). -/
def captureSlot (locals : List Local) (slot : Nat) : List Local :=
  let pos := locals.length - 1 - slot
  match locals.get? pos with
  | some l => locals.set pos { l with isCaptured := true }
  | none => locals

/-- `resolveUpvalue`, acting on a suffix of the frame chain whose head is
the frame doing the resolving: on a local hit in the enclosing frame mark
it captured and add a local upvalue; otherwise recurse outward and chain
a non-local upvalue.  Returns the upvalue index (or `-1`) and the updated
chain. -/
def resolveUpvalueGo (name : Token) (st : St) :
    List Comp → Int × List Comp × St
  | [] => (-1, [], st)
  | c :: rest =>
    match rest with
    | [] => (-1, c :: rest, st)
    | e :: rest' =>
      let (localIdx, st) := resolveLocal e name st
      if localIdx ≠ -1 then
        let e := { e with locals := captureSlot e.locals localIdx.toNat }
        let (idx, c, st) := addUpvalue c localIdx.toNat true st
        (idx, c :: e :: rest', st)
      else
        let (up, chain, st) := resolveUpvalueGo name st (e :: rest')
        if up ≠ -1 then
          let (idx, c, st) := addUpvalue c up.toNat false st
          (idx, c :: chain, st)
        else (-1, c :: chain, st)

/-- `addLocal`: append a local with depth `-1`, unless the frame already
holds 256 locals. -/
def addLocal (name : Token) (st : St) : St :=
  if (curComp st).locals.length = 256 then
    error msgTooManyLocals st
  else
    withComp (fun c =>
      { c with locals := ⟨name, -1, false⟩ :: c.locals }) st

/-- The redefinition scan inside `declareVariable`: walk the locals from
the top down, stopping at the first initialized local of an outer scope,
reporting every same-name local in the current scope. -/
def declareGo (name : Token) (sd : Int) (st : St) : List Local → St
  | [] => st
  | l :: rest =>
    if l.depth ≠ -1 ∧ l.depth < sd then st
    else
      declareGo name sd
        (if identifiersEqual name l.name then error msgAlreadyVar st else st)
        rest

/-- `declareVariable`: globals are implicitly declared; locals are checked
against redefinition in the same scope and appended uninitialized. -/
def declareVariable (st : St) : St :=
  if (curComp st).scopeDepth = 0 then st
  else
    let st := declareGo st.prev (curComp st).scopeDepth st (curComp st).locals
    addLocal st.prev st

/-- `markInitialized`: give the newest local the current scope depth. -/
def markInitialized (st : St) : St :=
  if (curComp st).scopeDepth = 0 then st
  else
    withComp (fun c =>
      { c with locals := match c.locals with
                         | [] => []
                         | l :: r => { l with depth := c.scopeDepth } :: r }) st

/-- `defineVariable`: locals are marked initialized; globals get
`DEFINE_GLOBAL`. -/
def defineVariable (global : Nat) (st : St) : St :=
  if (curComp st).scopeDepth > 0 then markInitialized st
  else emitBytes (.op .OP_DEFINE_GLOBAL) (.arg global) st

/-- `beginScope`. -/
def beginScope (st : St) : St :=
  withComp (fun c => { c with scopeDepth := c.scopeDepth + 1 }) st

/-- The pop loop of `endScope`, walking the locals from the top: locals
deeper than `sd` are dropped, each emitting `CLOSE_UPVALUE` if captured
else `POP`.  The third component records whether the loop ran off the
bottom of the array (the C guard `localCount >= 0` would then read
`locals[-1]`, which is undefined behaviour). -/
def endScopeGo (sd : Int) : List Local → List Local × List Instr × Bool
  | [] => ([], [], true)
  | l :: rest =>
    if l.depth > sd then
      let (ls, out, ub) := endScopeGo sd rest
      (ls, (if l.isCaptured then Instr.op .OP_CLOSE_UPVALUE
            else Instr.op .OP_POP) :: out, ub)
    else (l :: rest, [], false)

/-- `endScope`: decrement the scope depth and pop the scope's locals. -/
def endScope (st : St) : St :=
  let sd := (curComp st).scopeDepth - 1
  let (ls, out, _) := endScopeGo sd (curComp st).locals
  withComp (fun c =>
    { c with scopeDepth := sd, locals := ls, code := c.code ++ out }) st

/-- `initCompiler`: push a fresh frame; non-script frames take their name
from the previous token; slot 0 is reserved (`this` for non-function
kinds, the empty name otherwise). -/
def initCompilerSt (ftype : FunctionType) (st : St) : St :=
  let slot0 : Local :=
    ⟨⟨.IDENTIFIER, if ftype ≠ .TYPE_FUNCTION then "this" else "", 0⟩, 0, false⟩
  let c : Comp :=
    { fname := if ftype ≠ .TYPE_SCRIPT then some st.prev.lexeme else none,
      arity := 0, ftype := ftype, locals := [slot0], upvalues := [],
      scopeDepth := 0, code := [], constants := [] }
  { st with comps := c :: st.comps }

/-- `endCompiler`: emit the implicit return, package the frame's function
object, and pop back to the enclosing frame.  Also returns the popped
frame (whose upvalue array the caller still reads, as `function()`
does in C). -/
def endCompilerSt (st : St) : Value × Comp × St :=
  let st := emitReturn st
  let c := curComp st
  (Value.fn c.fname c.arity c.upvalues.length c.code c.constants, c,
   { st with comps := st.comps.tail })

/-- `parseVariable`: consume the identifier, declare it; locals get a
dummy constant index `0`, globals intern their name. -/
def parseVariable (msg : String) (st : St) : Nat × St :=
  let st := consume .IDENTIFIER msg st
  let st := declareVariable st
  if (curComp st).scopeDepth > 0 then (0, st)
  else identifierConstant st.prev st

/-- The `if (canAssign && match(TOKEN_EQUAL)) error(...)` tail of
`parsePrecedence`, flagging an `=` that no handler consumed. -/
def assignTargetCheck (canAssign : Bool) (st : St) : St :=
  if canAssign then
    let (m, st) := matchTok .EQUAL st
    if m then error msgInvalidAssign st else st
  else st

/-- Tags naming the prefix parse functions stored in the rule table. -/
inductive PfxKind where
  | PGroup | PUnary | PNum | PStr | PLit | PVar | PThis | PSuper
deriving DecidableEq, Repr

/-- Tags naming the infix parse functions stored in the rule table. -/
inductive IfxKind where
  | ICall | IDot | IBin | IAnd | IOr
deriving DecidableEq, Repr

/-- One row of the Pratt rule table. -/
structure Rule where
  pfx : Option PfxKind
  ifx : Option IfxKind
  prec : Precedence
deriving Repr

/-- The static rule table `rules[]`, row by row. -/
def getRule : TokenType → Rule
  | .LEFT_PAREN => ⟨some .PGroup, some .ICall, .PREC_CALL⟩
  | .RIGHT_PAREN => ⟨none, none, .PREC_NONE⟩
  | .LEFT_BRACE => ⟨none, none, .PREC_NONE⟩
  | .RIGHT_BRACE => ⟨none, none, .PREC_NONE⟩
  | .COMMA => ⟨none, none, .PREC_NONE⟩
  | .DOT => ⟨none, some .IDot, .PREC_CALL⟩
  | .MINUS => ⟨some .PUnary, some .IBin, .PREC_TERM⟩
  | .PLUS => ⟨none, some .IBin, .PREC_TERM⟩
  | .SEMICOLON => ⟨none, none, .PREC_NONE⟩
  | .SLASH => ⟨none, some .IBin, .PREC_FACTOR⟩
  | .STAR => ⟨none, some .IBin, .PREC_FACTOR⟩
  | .BANG => ⟨some .PUnary, none, .PREC_NONE⟩
  | .BANG_EQUAL => ⟨none, some .IBin, .PREC_EQUALITY⟩
  | .EQUAL => ⟨none, none, .PREC_NONE⟩
  | .EQUAL_EQUAL => ⟨none, some .IBin, .PREC_EQUALITY⟩
  | .GREATER => ⟨none, some .IBin, .PREC_COMPARISON⟩
  | .GREATER_EQUAL => ⟨none, some .IBin, .PREC_COMPARISON⟩
  | .LESS => ⟨none, some .IBin, .PREC_COMPARISON⟩
  | .LESS_EQUAL => ⟨none, some .IBin, .PREC_COMPARISON⟩
  | .IDENTIFIER => ⟨some .PVar, none, .PREC_NONE⟩
  | .STRING => ⟨some .PStr, none, .PREC_NONE⟩
  | .NUMBER => ⟨some .PNum, none, .PREC_NONE⟩
  | .AND => ⟨none, some .IAnd, .PREC_AND⟩
  | .CLASS => ⟨none, none, .PREC_NONE⟩
  | .ELSE => ⟨none, none, .PREC_NONE⟩
  | .FALSE => ⟨some .PLit, none, .PREC_NONE⟩
  | .FOR => ⟨none, none, .PREC_NONE⟩
  | .FUN => ⟨none, none, .PREC_NONE⟩
  | .IF => ⟨none, none, .PREC_NONE⟩
  | .NIL => ⟨some .PLit, none, .PREC_NONE⟩
  | .OR => ⟨none, some .IOr, .PREC_OR⟩
  | .PRINT => ⟨none, none, .PREC_NONE⟩
  | .RETURN => ⟨none, none, .PREC_NONE⟩
  | .SUPER => ⟨some .PSuper, none, .PREC_NONE⟩
  | .THIS => ⟨some .PThis, none, .PREC_NONE⟩
  | .TRUE => ⟨some .PLit, none, .PREC_NONE⟩
  | .VAR => ⟨none, none, .PREC_NONE⟩
  | .WHILE => ⟨none, none, .PREC_NONE⟩
  | .ERROR => ⟨none, none, .PREC_NONE⟩
  | .EOF => ⟨none, none, .PREC_NONE⟩

/-- `number`: the literal's value keeps its lexeme (see header note). -/
def numberFn (st : St) : St := emitConstant (.num st.prev.lexeme) st

/-- `string`: strip the surrounding quotes. -/
def stringFn (st : St) : St :=
  emitConstant (.str ((st.prev.lexeme.drop 1).dropRight 1)) st

/-- `literal`. -/
def literal (st : St) : St :=
  match st.prev.ttype with
  | .FALSE => emitByte (.op .OP_FALSE) st
  | .NIL => emitByte (.op .OP_NIL) st
  | .TRUE => emitByte (.op .OP_TRUE) st
  | _ => st

/-- Emit the `(is_local, index)` byte pairs that follow `OP_CLOSURE`. -/
def emitUpvals (ups : List Upvalue) (st : St) : St :=
  ups.foldl (fun st u =>
    emitByte (.arg u.index) (emitByte (.arg (if u.isLocal then 1 else 0)) st)) st

mutual

/-- `expression`: parse at assignment precedence. -/
def expression (fuel : Nat) (st : St) : St :=
  match fuel with
  | 0 => st
  | f + 1 => parsePrecedence f .PREC_ASSIGNMENT st

/-- `parsePrecedence`: advance, run the prefix rule, fold infix rules of
precedence at least `prec`, and finally flag an unconsumed `=`. -/
def parsePrecedence (fuel : Nat) (prec : Precedence) (st : St) : St :=
  match fuel with
  | 0 => st
  | f + 1 =>
    let st := advance st
    match (getRule st.prev.ttype).pfx with
    | none => error msgExpectExpr st
    | some pk =>
      let canAssign := pnat prec ≤ pnat .PREC_ASSIGNMENT
      let st := pfxRun f pk canAssign st
      let st := ppLoop f prec canAssign st
      assignTargetCheck canAssign st

/-- The infix loop of `parsePrecedence`. -/
def ppLoop (fuel : Nat) (prec : Precedence) (canAssign : Bool) (st : St) : St :=
  match fuel with
  | 0 => st
  | f + 1 =>
    if pnat prec ≤ pnat (getRule st.cur.ttype).prec then
      let st := advance st
      match (getRule st.prev.ttype).ifx with
      | some ik => ppLoop f prec canAssign (ifxRun f ik canAssign st)
      | none => st
    else st

/-- Dispatch a prefix rule (the `ParseFn` function-pointer call). -/
def pfxRun (fuel : Nat) (k : PfxKind) (canAssign : Bool) (st : St) : St :=
  match fuel with
  | 0 => st
  | f + 1 =>
    match k with
    | .PGroup => grouping f st
    | .PUnary => unary f st
    | .PNum => numberFn st
    | .PStr => stringFn st
    | .PLit => literal st
    | .PVar => variable_ f canAssign st
    | .PThis => this_ f st
    | .PSuper => super_ f st

/-- Dispatch an infix rule. -/
def ifxRun (fuel : Nat) (k : IfxKind) (canAssign : Bool) (st : St) : St :=
  match fuel with
  | 0 => st
  | f + 1 =>
    match k with
    | .ICall => call f st
    | .IDot => dot f canAssign st
    | .IBin => binary f st
    | .IAnd => and_ f st
    | .IOr => or_ f st

/-- `binary`: compile the right operand one level tighter, then emit the
operator's opcode(s). -/
def binary (fuel : Nat) (st : St) : St :=
  match fuel with
  | 0 => st
  | f + 1 =>
    let operatorType := st.prev.ttype
    let st := parsePrecedence f (psucc (getRule operatorType).prec) st
    match operatorType with
    | .BANG_EQUAL => emitBytes (.op .OP_EQUAL) (.op .OP_NOT) st
    | .EQUAL_EQUAL => emitByte (.op .OP_EQUAL) st
    | .GREATER => emitByte (.op .OP_GREATER) st
    | .GREATER_EQUAL => emitBytes (.op .OP_LESS) (.op .OP_NOT) st
    | .LESS => emitByte (.op .OP_LESS) st
    | .LESS_EQUAL => emitBytes (.op .OP_GREATER) (.op .OP_NOT) st
    | .PLUS => emitByte (.op .OP_ADD) st
    | .MINUS => emitByte (.op .OP_SUBTRACT) st
    | .STAR => emitByte (.op .OP_MULTIPLY) st
    | .SLASH => emitByte (.op .OP_DIVIDE) st
    | _ => st

/-- `unary`. -/
def unary (fuel : Nat) (st : St) : St :=
  match fuel with
  | 0 => st
  | f + 1 =>
    let operatorType := st.prev.ttype
    let st := parsePrecedence f .PREC_UNARY st
    match operatorType with
    | .BANG => emitByte (.op .OP_NOT) st
    | .MINUS => emitByte (.op .OP_NEGATE) st
    | _ => st

/-- `call`. -/
def call (fuel : Nat) (st : St) : St :=
  match fuel with
  | 0 => st
  | f + 1 =>
    let (argCount, st) := argumentList f st
    emitBytes (.op .OP_CALL) (.arg argCount) st

/-- `dot`: property get/set/invoke. -/
def dot (fuel : Nat) (canAssign : Bool) (st : St) : St :=
  match fuel with
  | 0 => st
  | f + 1 =>
    let st := consume .IDENTIFIER ("Expect property name after '.'.") st
    let (name, st) := identifierConstant st.prev st
    let (mEq, st') :=
      if canAssign then matchTok .EQUAL st else (false, st)
    if canAssign ∧ mEq then
      let st := expression f st'
      emitBytes (.op .OP_SET_PROPERTY) (.arg name) st
    else
      let (mLp, st) := matchTok .LEFT_PAREN st'
      if mLp then
        let (argCount, st) := argumentList f st
        let st := emitBytes (.op .OP_INVOKE) (.arg name) st
        emitByte (.arg argCount) st
      else
        emitBytes (.op .OP_GET_PROPERTY) (.arg name) st

/-- `grouping`. -/
def grouping (fuel : Nat) (st : St) : St :=
  match fuel with
  | 0 => st
  | f + 1 =>
    let st := expression f st
    consume .RIGHT_PAREN ("Expect ')' after expression.") st

/-- `namedVariable`: resolve as local, upvalue, or late-bound global, then
emit the get (or, on `canAssign` and a consumed `=`, the set). -/
def namedVariable (fuel : Nat) (name : Token) (canAssign : Bool) (st : St) : St :=
  match fuel with
  | 0 => st
  | f + 1 =>
    let (argL, st) := resolveLocal (curComp st) name st
    let (getOp, setOp, arg, st) :=
      if argL ≠ -1 then
        (OpCode.OP_GET_LOCAL, OpCode.OP_SET_LOCAL, argL.toNat, st)
      else
        let (argU, chain, st) := resolveUpvalueGo name st st.comps
        let st := { st with comps := chain }
        if argU ≠ -1 then
          (OpCode.OP_GET_UPVALUE, OpCode.OP_SET_UPVALUE, argU.toNat, st)
        else
          let (argG, st) := identifierConstant name st
          (OpCode.OP_GET_GLOBAL, OpCode.OP_SET_GLOBAL, argG, st)
    let (mEq, st') := if canAssign then matchTok .EQUAL st else (false, st)
    if canAssign ∧ mEq then
      let st := expression f st'
      emitBytes (.op setOp) (.arg arg) st
    else
      emitBytes (.op getOp) (.arg arg) st'

/-- `variable`. -/
def variable_ (fuel : Nat) (canAssign : Bool) (st : St) : St :=
  match fuel with
  | 0 => st
  | f + 1 => namedVariable f st.prev canAssign st

/-- `this_`: only legal inside a class; compiles as a read of the
reserved `this` local. -/
def this_ (fuel : Nat) (st : St) : St :=
  match fuel with
  | 0 => st
  | f + 1 =>
    if st.classes.isEmpty then
      error ("Can't use 'this' outside of a class.") st
    else variable_ f false st

/-- `and_`: short-circuit with a single conditional jump. -/
def and_ (fuel : Nat) (st : St) : St :=
  match fuel with
  | 0 => st
  | f + 1 =>
    let (endJump, st) := emitJump .OP_JUMP_IF_FALSE st
    let st := emitByte (.op .OP_POP) st
    let st := parsePrecedence f .PREC_AND st
    patchJump endJump st

/-- `or_`. -/
def or_ (fuel : Nat) (st : St) : St :=
  match fuel with
  | 0 => st
  | f + 1 =>
    let (avoidJump, st) := emitJump .OP_JUMP_IF_FALSE st
    let (endJump, st) := emitJump .OP_JUMP st
    let st := patchJump avoidJump st
    let st := emitByte (.op .OP_POP) st
    let st := parsePrecedence f .PREC_OR st
    patchJump endJump st

/-- `super_`, exactly as in the source — including the unconditional
trailing `namedVariable("super"); GET_SUPER name` after the
`SUPER_INVOKE` / `GET_SUPER` branch. -/
def super_ (fuel : Nat) (st : St) : St :=
  match fuel with
  | 0 => st
  | f + 1 =>
    let st :=
      match st.classes with
      | [] => error ("Can't use 'super' outside of a class.") st
      | cc :: _ =>
        if !cc.hasSuperclass then
          error ("Can't use 'super' in a class with no superclass.") st
        else st
    let st := consume .DOT ("Expect '.' after 'super'.") st
    let st := consume .IDENTIFIER ("Expect superclass method name.") st
    let (name, st) := identifierConstant st.prev st
    let st := namedVariable f (syntheticToken "this") false st
    let (mLp, st) := matchTok .LEFT_PAREN st
    let st :=
      if mLp then
        let (argCount, st) := argumentList f st
        let st := namedVariable f (syntheticToken "super") false st
        let st := emitBytes (.op .OP_SUPER_INVOKE) (.arg name) st
        emitByte (.arg argCount) st
      else
        let st := namedVariable f (syntheticToken "super") false st
        emitBytes (.op .OP_GET_SUPER) (.arg name) st
    let st := namedVariable f (syntheticToken "super") false st
    emitBytes (.op .OP_GET_SUPER) (.arg name) st

/-- The do-while body of `argumentList`; `argCount` is a `uint8_t` and
wraps at 256. -/
def argLoop (fuel : Nat) (argCount : Nat) (st : St) : Nat × St :=
  match fuel with
  | 0 => (argCount, st)
  | f + 1 =>
    let st := expression f st
    let st := if argCount = 255 then
                error ("Can't have more than 255 arguments.") st
              else st
    let argCount := (argCount + 1) % 256
    let (m, st) := matchTok .COMMA st
    if m then argLoop f argCount st else (argCount, st)

/-- `argumentList`. -/
def argumentList (fuel : Nat) (st : St) : Nat × St :=
  match fuel with
  | 0 => (0, st)
  | f + 1 =>
    let (argCount, st) :=
      if check .RIGHT_PAREN st then (0, st) else argLoop f 0 st
    let st := consume .RIGHT_PAREN ("Expect ')' after arguments.") st
    (argCount, st)

/-- `declaration` with the trailing panic-mode synchronization. -/
def declaration (fuel : Nat) (st : St) : St :=
  match fuel with
  | 0 => st
  | f + 1 =>
    let (mC, st) := matchTok .CLASS st
    let st :=
      if mC then classDeclaration f st
      else
        let (mF, st) := matchTok .FUN st
        if mF then funDeclaration f st
        else
          let (mV, st) := matchTok .VAR st
          if mV then varDeclaration f st
          else statement f st
    if st.panicMode then syncGo f st else st

/-- The loop of `synchronize` (panic mode already cleared by the caller
clause; here we clear it first, as the C function does). -/
def syncGo (fuel : Nat) (st : St) : St :=
  match fuel with
  | 0 => st
  | f + 1 =>
    let st := { st with panicMode := false }
    syncLoop f st

/-- `while (parser.current.type != TOKEN_EOF) ...` inside `synchronize`. -/
def syncLoop (fuel : Nat) (st : St) : St :=
  match fuel with
  | 0 => st
  | f + 1 =>
    if st.cur.ttype = .EOF then st
    else if st.prev.ttype = .SEMICOLON then st
    else
      match st.cur.ttype with
      | .CLASS | .FUN | .VAR | .FOR | .IF | .WHILE | .PRINT | .RETURN => st
      | _ => syncLoop f (advance st)

/-- `statement`. -/
def statement (fuel : Nat) (st : St) : St :=
  match fuel with
  | 0 => st
  | f + 1 =>
    let (mP, st) := matchTok .PRINT st
    if mP then printStatement f st
    else
      let (mI, st) := matchTok .IF st
      if mI then ifStatement f st
      else
        let (mR, st) := matchTok .RETURN st
        if mR then returnStatement f st
        else
          let (mW, st) := matchTok .WHILE st
          if mW then whileStatment f st
          else
            let (mF, st) := matchTok .FOR st
            if mF then forStatement f st
            else
              let (mB, st) := matchTok .LEFT_BRACE st
              if mB then endScope (block f (beginScope st))
              else expressionStatement f st

/-- `varDeclaration`. -/
def varDeclaration (fuel : Nat) (st : St) : St :=
  match fuel with
  | 0 => st
  | f + 1 =>
    let (slot, st) := parseVariable ("Expect variable name.") st
    let (m, st) := matchTok .EQUAL st
    let st := if m then expression f st else emitByte (.op .OP_NIL) st
    let st := consume .SEMICOLON ("Expect ';' after variable declaration.") st
    defineVariable slot st

/-- `funDeclaration`: the name is marked initialized before the body so
the function can recurse. -/
def funDeclaration (fuel : Nat) (st : St) : St :=
  match fuel with
  | 0 => st
  | f + 1 =>
    let (global, st) := parseVariable ("Expect function name.") st
    let st := markInitialized st
    let st := functionFn f .TYPE_FUNCTION st
    defineVariable global st

/-- `expressionStatement`. -/
def expressionStatement (fuel : Nat) (st : St) : St :=
  match fuel with
  | 0 => st
  | f + 1 =>
    let st := expression f st
    let st := consume .SEMICOLON ("Expect ';' after expression.") st
    emitByte (.op .OP_POP) st

/-- `printStatement`. -/
def printStatement (fuel : Nat) (st : St) : St :=
  match fuel with
  | 0 => st
  | f + 1 =>
    let st := expression f st
    let st := consume .SEMICOLON ("Expect ';' after value.") st
    emitByte (.op .OP_PRINT) st

/-- `returnStatement`: top-level returns and value-returning initializers
report errors; a bare `return;` defers to `emitReturn`. -/
def returnStatement (fuel : Nat) (st : St) : St :=
  match fuel with
  | 0 => st
  | f + 1 =>
    let st :=
      if (curComp st).ftype = .TYPE_SCRIPT then
        error ("Can't return from top-level code.") st
      else st
    let (m, st) := matchTok .SEMICOLON st
    if m then emitReturn st
    else
      let st :=
        if (curComp st).ftype = .TYPE_INITIALIZER then
          error ("Can't return a value from an initializer.") st
        else st
      let st := expression f st
      let st := consume .SEMICOLON ("Expect ';' after return value.") st
      emitByte (.op .OP_RETURN) st

/-- The declaration loop of `block`. -/
def blockLoop (fuel : Nat) (st : St) : St :=
  match fuel with
  | 0 => st
  | f + 1 =>
    if !check .RIGHT_BRACE st ∧ !check .EOF st then
      blockLoop f (declaration f st)
    else st

/-- `block`. -/
def block (fuel : Nat) (st : St) : St :=
  match fuel with
  | 0 => st
  | f + 1 =>
    let st := blockLoop f st
    consume .RIGHT_BRACE ("Expect '\x7d' after block.") st

/-- The parameter do-while loop of `function`. -/
def paramLoop (fuel : Nat) (st : St) : St :=
  match fuel with
  | 0 => st
  | f + 1 =>
    let st := withComp (fun c => { c with arity := c.arity + 1 }) st
    let st := if (curComp st).arity > 255 then
                errorAtCurrent ("Can't have more than 255 parameters.") st
              else st
    let (paramConstant, st) := parseVariable ("Expect parameter name.") st
    let st := defineVariable paramConstant st
    let (m, st) := matchTok .COMMA st
    if m then paramLoop f st else st

/-- `function`: compile a function body in a fresh frame, then emit the
closure (with its upvalue byte pairs) in the enclosing frame. -/
def functionFn (fuel : Nat) (ftype : FunctionType) (st : St) : St :=
  match fuel with
  | 0 => st
  | f + 1 =>
    let st := initCompilerSt ftype st
    let st := beginScope st
    let st := consume .LEFT_PAREN ("Expect '(' after function name.") st
    let st := if !check .RIGHT_PAREN st then paramLoop f st else st
    let st := consume .RIGHT_PAREN ("Expect ')' after parameters.") st
    let st := consume .LEFT_BRACE ("Expect '\x7b' before function body.") st
    let st := block f st
    let (fnv, popped, st) := endCompilerSt st
    let (cidx, st) := makeConstant fnv st
    let st := emitBytes (.op .OP_CLOSURE) (.arg cidx) st
    emitUpvals popped.upvalues st

/-- `method`: `init` compiles as an initializer. -/
def methodFn (fuel : Nat) (st : St) : St :=
  match fuel with
  | 0 => st
  | f + 1 =>
    let st := consume .IDENTIFIER ("Expect method name.") st
    let (constant, st) := identifierConstant st.prev st
    let ftype := if st.prev.lexeme = "init" then FunctionType.TYPE_INITIALIZER
                 else FunctionType.TYPE_METHOD
    let st := functionFn f ftype st
    emitBytes (.op .OP_METHOD) (.arg constant) st

/-- The method loop of `classDeclaration`. -/
def methodLoop (fuel : Nat) (st : St) : St :=
  match fuel with
  | 0 => st
  | f + 1 =>
    if !check .RIGHT_BRACE st ∧ !check .EOF st then
      methodLoop f (methodFn f st)
    else st

/-- `classDeclaration`: class object, optional superclass clause (scope
with the `super` local, `INHERIT`), then the methods. -/
def classDeclaration (fuel : Nat) (st : St) : St :=
  match fuel with
  | 0 => st
  | f + 1 =>
    let st := consume .IDENTIFIER ("Expect class name.") st
    let className := st.prev
    let (nameConstant, st) := identifierConstant st.prev st
    let st := declareVariable st
    let st := emitBytes (.op .OP_CLASS) (.arg nameConstant) st
    let st := defineVariable nameConstant st
    let st := { st with classes := ⟨st.prev, false⟩ :: st.classes }
    let (mL, st) := matchTok .LESS st
    let st :=
      if mL then
        let st := consume .IDENTIFIER ("Expect superclass name.") st
        let st := variable_ f false st
        let st := if identifiersEqual className st.prev then
                    error ("A class can't inherit from itself.") st
                  else st
        let st := beginScope st
        let st := addLocal (syntheticToken "super") st
        let st := defineVariable 0 st
        let st := namedVariable f className false st
        let st := emitByte (.op .OP_INHERIT) st
        { st with classes := match st.classes with
                             | [] => []
                             | cc :: r => { cc with hasSuperclass := true } :: r }
      else st
    let st := namedVariable f className false st
    let st := consume .LEFT_BRACE ("Expect '\x7b' before class body.") st
    let st := methodLoop f st
    let st := consume .RIGHT_BRACE ("Expect '\x7d' after class body.") st
    let st := emitByte (.op .OP_POP) st
    let st :=
      if (st.classes.headD ⟨dTok, false⟩).hasSuperclass then endScope st else st
    { st with classes := st.classes.tail }

/-- `ifStatement`. -/
def ifStatement (fuel : Nat) (st : St) : St :=
  match fuel with
  | 0 => st
  | f + 1 =>
    let st := consume .LEFT_PAREN ("Expect '(' after 'if'.") st
    let st := expression f st
    let st := consume .RIGHT_PAREN ("Expect ')' after condition.") st
    let (thenJump, st) := emitJump .OP_JUMP_IF_FALSE st
    let st := emitByte (.op .OP_POP) st
    let st := statement f st
    let (elseJump, st) := emitJump .OP_JUMP st
    let st := patchJump thenJump st
    let st := emitByte (.op .OP_POP) st
    let (mE, st) := matchTok .ELSE st
    let st := if mE then statement f st else st
    patchJump elseJump st

/-- `whileStatment` (sic). -/
def whileStatment (fuel : Nat) (st : St) : St :=
  match fuel with
  | 0 => st
  | f + 1 =>
    let loopStart := (curComp st).code.length
    let st := consume .LEFT_PAREN ("Expect '(' after 'while'.") st
    let st := expression f st
    let st := consume .RIGHT_PAREN ("Expect ')' after condition.") st
    let (exitJump, st) := emitJump .OP_JUMP_IF_FALSE st
    let st := emitByte (.op .OP_POP) st
    let st := statement f st
    let st := emitLoop loopStart st
    let st := patchJump exitJump st
    emitByte (.op .OP_POP) st

/-- `forStatement`. -/
def forStatement (fuel : Nat) (st : St) : St :=
  match fuel with
  | 0 => st
  | f + 1 =>
    let st := beginScope st
    let st := consume .LEFT_PAREN ("Expect '(' after 'for'.") st
    let (mS, st) := matchTok .SEMICOLON st
    let st :=
      if mS then st
      else
        let (mV, st) := matchTok .VAR st
        if mV then varDeclaration f st else expressionStatement f st
    let loopStart := (curComp st).code.length
    let (mS2, st) := matchTok .SEMICOLON st
    let (exitJump, st) :=
      if !mS2 then
        let st := expression f st
        let st := consume .SEMICOLON ("Expect ';' after loop condition.") st
        let (e, st) := emitJump .OP_JUMP_IF_FALSE st
        (some e, emitByte (.op .OP_POP) st)
      else ((none : Option Nat), st)
    let (mR, st) := matchTok .RIGHT_PAREN st
    let (loopStart, st) :=
      if !mR then
        let (bodyJump, st) := emitJump .OP_JUMP st
        let incrementStart := (curComp st).code.length
        let st := expression f st
        let st := emitByte (.op .OP_POP) st
        let st := consume .RIGHT_PAREN ("Expect ')' after for loop initializer.") st
        let st := emitLoop loopStart st
        (incrementStart, patchJump bodyJump st)
      else (loopStart, st)
    let st := statement f st
    let st := emitLoop loopStart st
    let st :=
      match exitJump with
      | some e => emitByte (.op .OP_POP) (patchJump e st)
      | none => st
    endScope st

/-- The `while (!match(TOKEN_EOF)) declaration();` driver loop of
`compile`.  The boolean records whether the loop exited through its own
end-of-input test (rather than by running out of fuel). -/
def compileLoop (fuel : Nat) (st : St) : St × Bool :=
  match fuel with
  | 0 => (st, false)
  | f + 1 =>
    let (m, st) := matchTok .EOF st
    if m then (st, true) else compileLoop f (declaration f st)

end

/-- The parser/session state at `compile` entry, before the first
`advance`: fresh parser flags, the root script frame pushed, no class
scope. -/
def compileInit (toks : List Token) : St :=
  initCompilerSt .TYPE_SCRIPT
    { toks := toks, prev := dTok, cur := dTok, hadError := false,
      panicMode := false, errors := [], comps := [], classes := [] }

/-- `compile` up to (but not including) `endCompiler`: prime the parser
and run the declaration loop.  The boolean is `compileLoop`'s
exited-at-end-of-input flag. -/
def compileSt (fuel : Nat) (toks : List Token) : St × Bool :=
  compileLoop fuel (advance (compileInit toks))

/-- `compile`: the full driver.  Returns the script function, or `none`
when any error was reported, together with the final state. -/
def compile (fuel : Nat) (toks : List Token) : Option Value × St :=
  let (st, _) := compileSt fuel toks
  let (fnv, _, st) := endCompilerSt st
  (if st.hadError then none else some fnv, st)

/-- The code array of a function value (`[]` for non-functions). -/
def fnCode : Value → List Instr
  | .fn _ _ _ code _ => code
  | _ => []

/-- The constant pool of a function value. -/
def fnConsts : Value → List Value
  | .fn _ _ _ _ consts => consts
  | _ => []

/-- Convenience token builders for concrete test programs. -/
def idTok (s : String) : Token := ⟨.IDENTIFIER, s, 1⟩

def kTok (t : TokenType) : Token := ⟨t, "", 1⟩

/-! ### Framing lemmas -/

@[simp] theorem errorAt_comps (t : Token) (m : String) (st : St) :
    (errorAt t m st).comps = st.comps := by
  unfold errorAt; split <;> rfl

@[simp] theorem error_comps (m : String) (st : St) :
    (error m st).comps = st.comps := errorAt_comps _ _ _

theorem advGo_comps (ts : List Token) (st : St) :
    (advGo st ts).comps = st.comps := by
  induction ts generalizing st with
  | nil => rfl
  | cons t ts ih =>
    unfold advGo
    split
    · rw [ih, errorAt_comps]
    · rfl

@[simp] theorem advance_comps (st : St) : (advance st).comps = st.comps := by
  unfold advance; rw [advGo_comps]

theorem advGo_prev (ts : List Token) (st : St) :
    (advGo st ts).prev = st.prev := by
  induction ts generalizing st with
  | nil => rfl
  | cons t ts ih =>
    unfold advGo
    split
    · rw [ih]
      unfold errorAt; split <;> rfl
    · rfl

@[simp] theorem advance_prev (st : St) : (advance st).prev = st.cur := by
  unfold advance; rw [advGo_prev]

theorem matchTok_pos {t : TokenType} {st : St} (h : st.cur.ttype = t) :
    matchTok t st = (true, advance st) := by
  unfold matchTok; simp [h]

theorem matchTok_neg {t : TokenType} {st : St} (h : st.cur.ttype ≠ t) :
    matchTok t st = (false, st) := by
  unfold matchTok; simp [h]

@[simp] theorem withComp_hadError (f : Comp → Comp) (st : St) :
    (withComp f st).hadError = st.hadError := by
  unfold withComp; rfl

@[simp] theorem emitByte_hadError (b : Instr) (st : St) :
    (emitByte b st).hadError = st.hadError := withComp_hadError _ _

@[simp] theorem emitReturn_hadError (st : St) :
    (emitReturn st).hadError = st.hadError := by
  unfold emitReturn emitBytes
  split <;> simp

theorem withComp_cons (f : Comp → Comp) {st : St} {c : Comp} {rest : List Comp}
    (h : st.comps = c :: rest) : (withComp f st).comps = f c :: rest := by
  unfold withComp; rw [h]

theorem curComp_eq {st : St} {c : Comp} {rest : List Comp}
    (h : st.comps = c :: rest) : curComp st = c := by
  unfold curComp; rw [h]; rfl

/-! ### C3: the implicit return sequence -/

/-- The kind-dependent implicit return byte sequence of the spec. -/
def retSeq (ft : FunctionType) : List Instr :=
  (if ft = .TYPE_INITIALIZER then [.op .OP_GET_LOCAL, .arg 0]
   else [.op .OP_NIL]) ++ [.op .OP_RETURN]

theorem emitReturn_spec {st : St} {c : Comp} {rest : List Comp}
    (h : st.comps = c :: rest) :
    (emitReturn st).comps = { c with code := c.code ++ retSeq c.ftype } :: rest := by
  unfold emitReturn emitBytes emitByte retSeq
  rw [curComp_eq h]
  split
  · rw [withComp_cons _ (withComp_cons _ (withComp_cons _ h))]
    simp
  · rw [withComp_cons _ (withComp_cons _ h)]
    simp

/-- C3: every frame finalized by `end_compiler` gets `GET_LOCAL 0; RETURN`
when its kind is `Initializer` and `NIL; RETURN` otherwise, and a bare
`return;` in a non-script frame emits the same kind-dependent sequence. -/
theorem C3_implicit_return :
    (∀ (st : St) (c : Comp) (rest : List Comp), st.comps = c :: rest →
      (emitReturn st).comps =
        { c with code := c.code ++ retSeq c.ftype } :: rest) ∧
    (∀ (f : Nat) (st : St) (c : Comp) (rest : List Comp),
      st.comps = c :: rest → c.ftype ≠ .TYPE_SCRIPT →
      st.cur.ttype = .SEMICOLON →
      (returnStatement (f + 1) st).comps =
        { c with code := c.code ++ retSeq c.ftype } :: rest) := by
  constructor
  · exact fun st c rest h => emitReturn_spec h
  · intro f st c rest h hft hcur
    have hadv : (advance st).comps = c :: rest := by rw [advance_comps, h]
    unfold returnStatement
    rw [curComp_eq h]
    simp only [hft, if_neg, ite_false]
    rw [matchTok_pos hcur]
    simpa using emitReturn_spec hadv

/-- Witness for `C3_implicit_return` at concrete initializer and function
frames. -/
theorem C3_implicit_return_witness :
    (emitReturn
      { toks := [], prev := dTok, cur := dTok, hadError := false,
        panicMode := false, errors := [],
        comps := [{ dComp with ftype := .TYPE_INITIALIZER }], classes := [] }).comps =
      [({ dComp with ftype := .TYPE_INITIALIZER
                     code := [.op .OP_GET_LOCAL, .arg 0, .op .OP_RETURN] })] ∧
    (returnStatement 1
      { toks := [], prev := dTok, cur := ⟨.SEMICOLON, ";", 1⟩, hadError := false,
        panicMode := false, errors := [],
        comps := [{ dComp with ftype := .TYPE_FUNCTION }], classes := [] }).comps =
      [({ dComp with ftype := .TYPE_FUNCTION
                     code := [.op .OP_NIL, .op .OP_RETURN] })] := by
  constructor
  · have := C3_implicit_return.1
      { toks := [], prev := dTok, cur := dTok, hadError := false,
        panicMode := false, errors := [],
        comps := [{ dComp with ftype := .TYPE_INITIALIZER }], classes := [] }
      { dComp with ftype := .TYPE_INITIALIZER } [] rfl
    simpa [retSeq] using this
  · have := C3_implicit_return.2 0
      { toks := [], prev := dTok, cur := ⟨.SEMICOLON, ";", 1⟩, hadError := false,
        panicMode := false, errors := [],
        comps := [{ dComp with ftype := .TYPE_FUNCTION }], classes := [] }
      { dComp with ftype := .TYPE_FUNCTION } [] rfl (by decide) rfl
    simpa [retSeq] using this

/-! ### C8: the 256-local capacity of a frame -/

@[simp] theorem withComp_errors (f : Comp → Comp) (st : St) :
    (withComp f st).errors = st.errors := by
  unfold withComp; rfl

theorem errorAt_spec {st : St} (t : Token) (m : String)
    (h : st.panicMode = false) :
    (errorAt t m st).errors = st.errors ++ [⟨t, m⟩] ∧
    (errorAt t m st).hadError = true := by
  unfold errorAt; rw [h]; exact ⟨rfl, rfl⟩

/-- C8: a frame accepts up to 256 locals (slot 0 being reserved at frame
creation, so 255 user declarations): `addLocal` on a frame holding fewer
than 256 locals appends silently; on a frame holding exactly 256 it
leaves the locals alone and reports "Too many local variables in
function.". -/
theorem C8_local_capacity :
    (∀ (st : St) (name : Token) (c : Comp) (rest : List Comp),
      st.comps = c :: rest → c.locals.length < 256 →
      (addLocal name st).comps =
          { c with locals := ⟨name, -1, false⟩ :: c.locals } :: rest ∧
        (addLocal name st).errors = st.errors ∧
        (addLocal name st).hadError = st.hadError) ∧
    (∀ (st : St) (name : Token) (c : Comp) (rest : List Comp),
      st.comps = c :: rest → c.locals.length = 256 → st.panicMode = false →
      (addLocal name st).comps = c :: rest ∧
        (addLocal name st).errors = st.errors ++ [⟨st.prev, msgTooManyLocals⟩] ∧
        (addLocal name st).hadError = true) ∧
    (∀ (ft : FunctionType) (st : St),
      (curComp (initCompilerSt ft st)).locals.length = 1) := by
  refine ⟨?_, ?_, ?_⟩
  · intro st name c rest h hlen
    unfold addLocal
    rw [curComp_eq h]
    have : ¬c.locals.length = 256 := by omega
    simp only [this, ite_false]
    exact ⟨withComp_cons _ h, withComp_errors _ _, withComp_hadError _ _⟩
  · intro st name c rest h hlen hp
    unfold addLocal
    rw [curComp_eq h]
    simp only [hlen, ite_true]
    have hs := errorAt_spec st.prev msgTooManyLocals hp
    exact ⟨by rw [error_comps, h], hs.1, hs.2⟩
  · intro ft st
    unfold initCompilerSt curComp
    rfl

/-- Witness for `C8_local_capacity`: a frame with the single reserved
local accepts a new one; a frame with 256 locals rejects the 257th. -/
theorem C8_local_capacity_witness :
    ((addLocal (idTok "x")
        { toks := [], prev := dTok, cur := dTok, hadError := false,
          panicMode := false, errors := [],
          comps := [({ dComp with locals := [⟨idTok "this", 0, false⟩] })],
          classes := [] }).errors = [] ∧
     (addLocal (idTok "y")
        { toks := [], prev := idTok "y", cur := dTok, hadError := false,
          panicMode := false, errors := [],
          comps := [({ dComp with locals := List.replicate 256 ⟨idTok "z", 1, false⟩ })],
          classes := [] }).errors = [⟨idTok "y", msgTooManyLocals⟩]) ∧
    (curComp (initCompilerSt .TYPE_SCRIPT
        { toks := [], prev := dTok, cur := dTok, hadError := false,
          panicMode := false, errors := [], comps := [],
          classes := [] })).locals.length = 1 := by
  refine ⟨⟨?_, ?_⟩, ?_⟩
  · have := C8_local_capacity.1
      { toks := [], prev := dTok, cur := dTok, hadError := false,
        panicMode := false, errors := [],
        comps := [({ dComp with locals := [⟨idTok "this", 0, false⟩] })],
        classes := [] } (idTok "x")
      ({ dComp with locals := [⟨idTok "this", 0, false⟩] }) [] rfl (by decide)
    rw [this.2.1]
  · have := C8_local_capacity.2.1
      { toks := [], prev := idTok "y", cur := dTok, hadError := false,
        panicMode := false, errors := [],
        comps := [({ dComp with locals := List.replicate 256 ⟨idTok "z", 1, false⟩ })],
        classes := [] } (idTok "y")
      ({ dComp with locals := List.replicate 256 ⟨idTok "z", 1, false⟩ }) [] rfl
      (List.length_replicate 256 _) rfl
    rw [this.2.1]; rfl
  · exact C8_local_capacity.2.2 .TYPE_SCRIPT _

/-! ### C9: upvalue deduplication -/

theorem findUp_mem {idx : Nat} {b : Bool} :
    ∀ {ups : List Upvalue}, (⟨idx, b⟩ : Upvalue) ∈ ups →
      ∃ i, findUp idx b ups = some i ∧ ups.get? i = some ⟨idx, b⟩ := by
  intro ups
  induction ups with
  | nil => intro h; cases h
  | cons u rest ih =>
    intro hmem
    by_cases hc : u.index = idx ∧ u.isLocal = b
    · refine ⟨0, ?_, ?_⟩
      · unfold findUp; rw [if_pos hc]
      · have : u = ⟨idx, b⟩ := by
          cases u; simp at hc; simp [hc]
        simp [this]
    · have hne : u ≠ ⟨idx, b⟩ := by
        intro he; exact hc (by rw [he]; exact ⟨rfl, rfl⟩)
      have : (⟨idx, b⟩ : Upvalue) ∈ rest := by
        cases hmem with
        | head => exact absurd rfl hne
        | tail _ h => exact h
      obtain ⟨i, hf, hg⟩ := ih this
      refine ⟨i + 1, ?_, ?_⟩
      · unfold findUp; rw [if_neg hc, hf]
      · simpa using hg

theorem findUp_not_mem {idx : Nat} {b : Bool} :
    ∀ {ups : List Upvalue}, (⟨idx, b⟩ : Upvalue) ∉ ups →
      findUp idx b ups = none := by
  intro ups
  induction ups with
  | nil => intro _; rfl
  | cons u rest ih =>
    intro hmem
    have hne : u ≠ ⟨idx, b⟩ := fun he => hmem (he ▸ List.mem_cons_self u rest)
    have hc : ¬(u.index = idx ∧ u.isLocal = b) := by
      intro hc; exact hne (by cases u; simp at hc; simp [hc])
    have hrest : (⟨idx, b⟩ : Upvalue) ∉ rest :=
      fun h => hmem (List.mem_cons_of_mem u h)
    unfold findUp
    rw [if_neg hc, ih hrest]

/-- C9: `addUpvalue` is idempotent in `(index, is_local)`: a pair already
present is answered with the existing slot's index and the frame (hence
its upvalue count) is unchanged; a fresh pair, below the capacity bound,
is appended exactly once at the next index. -/
theorem C9_addUpvalue_idempotent :
    (∀ (c : Comp) (idx : Nat) (b : Bool) (st : St),
      (⟨idx, b⟩ : Upvalue) ∈ c.upvalues →
      ∃ i, addUpvalue c idx b st = (Int.ofNat i, c, st) ∧
        c.upvalues.get? i = some ⟨idx, b⟩) ∧
    (∀ (c : Comp) (idx : Nat) (b : Bool) (st : St),
      (⟨idx, b⟩ : Upvalue) ∉ c.upvalues → c.upvalues.length < 256 →
      addUpvalue c idx b st =
        (Int.ofNat c.upvalues.length,
         { c with upvalues := c.upvalues ++ [⟨idx, b⟩] }, st)) := by
  constructor
  · intro c idx b st hmem
    obtain ⟨i, hf, hg⟩ := findUp_mem hmem
    exact ⟨i, by unfold addUpvalue; rw [hf], hg⟩
  · intro c idx b st hmem hlen
    unfold addUpvalue
    rw [findUp_not_mem hmem]
    have : ¬c.upvalues.length = 256 := by omega
    simp only [this, ite_false]

/-- Witness for `C9_addUpvalue_idempotent` on a frame holding the single
upvalue `(1, true)`. -/
theorem C9_addUpvalue_idempotent_witness :
    (∃ i, addUpvalue ({ dComp with upvalues := [⟨1, true⟩] }) 1 true
        { toks := [], prev := dTok, cur := dTok, hadError := false,
          panicMode := false, errors := [], comps := [], classes := [] } =
        (Int.ofNat i, { dComp with upvalues := [⟨1, true⟩] },
         { toks := [], prev := dTok, cur := dTok, hadError := false,
           panicMode := false, errors := [], comps := [], classes := [] }) ∧
      ([⟨1, true⟩] : List Upvalue).get? i = some ⟨1, true⟩) ∧
    addUpvalue ({ dComp with upvalues := [⟨1, true⟩] }) 0 false
        { toks := [], prev := dTok, cur := dTok, hadError := false,
          panicMode := false, errors := [], comps := [], classes := [] } =
      (Int.ofNat 1, { dComp with upvalues := [⟨1, true⟩, ⟨0, false⟩] },
       { toks := [], prev := dTok, cur := dTok, hadError := false,
         panicMode := false, errors := [], comps := [], classes := [] }) := by
  constructor
  · exact C9_addUpvalue_idempotent.1 ({ dComp with upvalues := [⟨1, true⟩] })
      1 true _ (by decide)
  · have := C9_addUpvalue_idempotent.2 ({ dComp with upvalues := [⟨1, true⟩] })
      0 false
      { toks := [], prev := dTok, cur := dTok, hadError := false,
        panicMode := false, errors := [], comps := [], classes := [] }
      (by decide) (by decide)
    simpa using this

/-! ### C5 and C6: `endScope` -/

/-- The single byte emitted for a popped local. -/
def popInstr (l : Local) : Instr :=
  if l.isCaptured then .op .OP_CLOSE_UPVALUE else .op .OP_POP

/-- `endScope` in terms of its pop loop. -/
theorem endScope_comps {st : St} {c : Comp} {rest : List Comp}
    (h : st.comps = c :: rest) :
    (endScope st).comps =
      { c with
          scopeDepth := c.scopeDepth - 1,
          locals := (endScopeGo (c.scopeDepth - 1) c.locals).1,
          code := c.code ++ (endScopeGo (c.scopeDepth - 1) c.locals).2.1 }
        :: rest := by
  unfold endScope
  rw [curComp_eq h]
  cases hg : endScopeGo (c.scopeDepth - 1) c.locals with
  | mk ls p =>
    cases p with
    | mk out ub =>
      simp only [hg]
      rw [withComp_cons _ h]

theorem endScopeGo_spec (sd : Int) :
    ∀ ls : List Local,
      ls.Pairwise (fun a b => b.depth ≤ a.depth) →
      (∃ l ∈ ls, l.depth ≤ sd) →
      endScopeGo sd ls =
        (ls.filter (fun l => decide (l.depth ≤ sd)),
         (ls.filter (fun l => decide (sd < l.depth))).map popInstr,
         false) := by
  intro ls
  induction ls with
  | nil => intro _ hex; obtain ⟨l, hl, _⟩ := hex; cases hl
  | cons l rest ih =>
    intro hsort hex
    obtain ⟨h1, h2⟩ := List.pairwise_cons.mp hsort
    by_cases hd : l.depth > sd
    · have hnle : ¬l.depth ≤ sd := by omega
      have hex' : ∃ x ∈ rest, x.depth ≤ sd := by
        obtain ⟨x, hx, hxd⟩ := hex
        cases hx with
        | head => omega
        | tail _ hx => exact ⟨x, hx, hxd⟩
      unfold endScopeGo
      rw [if_pos hd, ih h2 hex']
      simp [List.filter_cons, hnle, hd, popInstr]
    · have hle : l.depth ≤ sd := by omega
      unfold endScopeGo
      rw [if_neg hd]
      have hall : List.filter (fun l => decide (l.depth ≤ sd)) (l :: rest) =
          l :: rest := by
        rw [List.filter_eq_self]
        intro a ha
        cases ha with
        | head => simpa using hle
        | tail _ ha =>
          have := h1 a ha
          simp only [decide_eq_true_eq]
          omega
      have hnone : List.filter (fun l => decide (sd < l.depth)) (l :: rest) =
          [] := by
        rw [List.filter_eq_nil_iff]
        intro a ha
        cases ha with
        | head => simpa using hd
        | tail _ ha =>
          have := h1 a ha
          simp only [decide_eq_true_eq]
          omega
      rw [hall, hnone]
      rfl

/-- C5: `end_scope` removes exactly the locals deeper than the
decremented scope depth, emitting one byte per removed local
(`CLOSE_UPVALUE` when captured, `POP` otherwise), and leaves the locals
at or below the new depth unchanged.  The hypotheses are the stack
invariants: depths never increase from the top of the locals stack down,
and some local survives the cut (slot 0 always does in the source,
cf. C6). -/
theorem C5_endScope_pops :
    ∀ (st : St) (c : Comp) (rest : List Comp),
      st.comps = c :: rest →
      c.locals.Pairwise (fun a b => b.depth ≤ a.depth) →
      (∃ l ∈ c.locals, l.depth ≤ c.scopeDepth - 1) →
      (endScope st).comps =
        { c with
            scopeDepth := c.scopeDepth - 1,
            locals := c.locals.filter
              (fun l => decide (l.depth ≤ c.scopeDepth - 1)),
            code := c.code ++
              (c.locals.filter
                (fun l => decide (c.scopeDepth - 1 < l.depth))).map popInstr }
          :: rest := by
  intro st c rest h hsort hex
  rw [endScope_comps h,
      endScopeGo_spec (c.scopeDepth - 1) c.locals hsort hex]

/-- Witness for `C5_endScope_pops`: a block with one captured and one
plain local above the surviving slot-0 local. -/
theorem C5_endScope_pops_witness :
    (endScope
      { toks := [], prev := dTok, cur := dTok, hadError := false,
        panicMode := false, errors := [],
        comps := [({ dComp with
                       scopeDepth := 1
                       locals := [⟨idTok "y", 1, true⟩, ⟨idTok "x", 1, false⟩,
                                  ⟨idTok "this", 0, false⟩] })],
        classes := [] }).comps =
      [({ dComp with
            scopeDepth := 0
            locals := [⟨idTok "this", 0, false⟩]
            code := [.op .OP_CLOSE_UPVALUE, .op .OP_POP] })] := by
  have := C5_endScope_pops
    { toks := [], prev := dTok, cur := dTok, hadError := false,
      panicMode := false, errors := [],
      comps := [({ dComp with
                     scopeDepth := 1
                     locals := [⟨idTok "y", 1, true⟩, ⟨idTok "x", 1, false⟩,
                                ⟨idTok "this", 0, false⟩] })],
      classes := [] }
    ({ dComp with
         scopeDepth := 1
         locals := [⟨idTok "y", 1, true⟩, ⟨idTok "x", 1, false⟩,
                    ⟨idTok "this", 0, false⟩] })
    [] rfl (by decide) ⟨⟨idTok "this", 0, false⟩, by decide⟩
  rw [this]
  rfl

theorem endScopeGo_no_ub (sd : Int) :
    ∀ (ls : List Local) (l0 : Local),
      ls.getLast? = some l0 → l0.depth ≤ sd →
      (endScopeGo sd ls).2.2 = false ∧ (endScopeGo sd ls).1 ≠ [] := by
  intro ls
  induction ls with
  | nil => intro l0 h; cases h
  | cons l rest ih =>
    intro l0 hlast hle
    cases rest with
    | nil =>
      have he : l0 = l := by
        simp [List.getLast?] at hlast
        exact hlast.symm
      have hdl : l.depth ≤ sd := he ▸ hle
      have hnd : ¬l.depth > sd := by omega
      unfold endScopeGo
      rw [if_neg hnd]
      exact ⟨rfl, by simp⟩
    | cons r rs =>
      have hlast' : (r :: rs).getLast? = some l0 := by
        rwa [List.getLast?_cons_cons] at hlast
      by_cases hd : l.depth > sd
      · have hrec := ih l0 hlast' hle
        unfold endScopeGo
        rw [if_pos hd]
        cases hgo : endScopeGo sd (r :: rs) with
        | mk ls' p =>
          rw [hgo] at hrec
          cases p with
          | mk out ub => exact ⟨hrec.1, hrec.2⟩
      · unfold endScopeGo
        rw [if_neg hd]
        exact ⟨rfl, by simp⟩

/-- C6: for every `end_scope` paired with a prior `begin_scope` in the
same frame (so the scope depth is at least 1 before the decrement), the
pop loop never runs off the bottom of the locals array — the reserved
slot-0 local of depth 0 stops it — so the `>= 0` guard never leads to an
access at index `-1`, and at least one local survives. -/
theorem C6_endScope_guard_safe :
    ∀ (st : St) (c : Comp) (rest : List Comp) (l0 : Local),
      st.comps = c :: rest → 1 ≤ c.scopeDepth →
      c.locals.getLast? = some l0 → l0.depth = 0 →
      (endScopeGo (c.scopeDepth - 1) c.locals).2.2 = false ∧
      (endScopeGo (c.scopeDepth - 1) c.locals).1 ≠ [] ∧
      (curComp (endScope st)).locals ≠ [] := by
  intro st c rest l0 h hsd hlast hdep
  have hle : l0.depth ≤ c.scopeDepth - 1 := by omega
  have hgo := endScopeGo_no_ub (c.scopeDepth - 1) c.locals l0 hlast hle
  refine ⟨hgo.1, hgo.2, ?_⟩
  rw [curComp_eq (endScope_comps h)]
  exact hgo.2

/-- Witness for `C6_endScope_guard_safe` on a one-scope frame whose whole
scope is popped down to the reserved slot. -/
theorem C6_endScope_guard_safe_witness :
    (endScopeGo 0 [⟨idTok "x", 1, false⟩, ⟨idTok "this", 0, false⟩]).2.2 =
      false ∧
    (endScopeGo 0 [⟨idTok "x", 1, false⟩, ⟨idTok "this", 0, false⟩]).1 ≠ [] ∧
    (curComp (endScope
      { toks := [], prev := dTok, cur := dTok, hadError := false,
        panicMode := false, errors := [],
        comps := [({ dComp with
                       scopeDepth := 1
                       locals := [⟨idTok "x", 1, false⟩,
                                  ⟨idTok "this", 0, false⟩] })],
        classes := [] })).locals ≠ [] := by
  exact C6_endScope_guard_safe
    { toks := [], prev := dTok, cur := dTok, hadError := false,
      panicMode := false, errors := [],
      comps := [({ dComp with
                     scopeDepth := 1
                     locals := [⟨idTok "x", 1, false⟩,
                                ⟨idTok "this", 0, false⟩] })],
      classes := [] }
    ({ dComp with
         scopeDepth := 1
         locals := [⟨idTok "x", 1, false⟩, ⟨idTok "this", 0, false⟩] })
    [] ⟨idTok "this", 0, false⟩ rfl (by decide) (by decide) rfl

/-! ### C4: the self-initializer error message -/

/-- Tokens of `{ var a = a; }` (a local-scope self-initializing
declaration). -/
def c4Toks : List Token :=
  [kTok .LEFT_BRACE, kTok .VAR, idTok "a", kTok .EQUAL, idTok "a",
   kTok .SEMICOLON, kTok .RIGHT_BRACE]

/-- The message the claim asserts (and the source does not produce). -/
def msgSelfInitClaimed : String :=
  "Can't read local variable in its own initializer."

/-- C4 counterexample: on `{ var a = a; }` the compiler reports exactly
one error, whose text is "Can't read local variable in it's own
initializer." — which is not the text the claim asserts (the source
misspells "its" as "it's"). -/
theorem C4_claim_counterexample :
    (compile 30 c4Toks).2.errors.map (fun e => e.msg) = [msgSelfInit] ∧
    msgSelfInit ≠ msgSelfInitClaimed := by
  exact ⟨rfl, by decide⟩

/-- C4 (amended): whenever `resolveLocal` matches a local whose depth is
`-1`, it reports (outside panic mode) an error whose message text is
exactly "Can't read local variable in it's own initializer.", and still
returns the matched slot index. -/
theorem C4_self_initializer_message :
    ∀ (c : Comp) (name : Token) (st : St) (k : Nat) (l : Local),
      lookupLocal name c.locals = some (k, l) → l.depth = -1 →
      st.panicMode = false →
      (resolveLocal c name st).2.errors =
          st.errors ++ [⟨st.prev, msgSelfInit⟩] ∧
        (resolveLocal c name st).2.hadError = true ∧
        (resolveLocal c name st).1 = Int.ofNat (c.locals.length - 1 - k) := by
  intro c name st k l hlook hdep hp
  unfold resolveLocal
  rw [hlook]
  simp only [hdep, ite_true, if_pos rfl]
  have hs := errorAt_spec st.prev msgSelfInit hp
  exact ⟨hs.1, hs.2, by trivial⟩

/-- Witness for `C4_self_initializer_message` on a frame whose top local
`a` is still uninitialized. -/
theorem C4_self_initializer_message_witness :
    (resolveLocal ({ dComp with locals := [⟨idTok "a", -1, false⟩] })
        (idTok "a")
        { toks := [], prev := idTok "a", cur := dTok, hadError := false,
          panicMode := false, errors := [], comps := [],
          classes := [] }).2.errors = [⟨idTok "a", msgSelfInit⟩] := by
  have := C4_self_initializer_message
    ({ dComp with locals := [⟨idTok "a", -1, false⟩] }) (idTok "a")
    { toks := [], prev := idTok "a", cur := dTok, hadError := false,
      panicMode := false, errors := [], comps := [], classes := [] }
    0 ⟨idTok "a", -1, false⟩ rfl rfl rfl
  rw [this.1]
  rfl

/-! ### C7: invalid assignment targets -/

/-- Tokens of `a + b = c;`. -/
def c7BadToks : List Token :=
  [idTok "a", kTok .PLUS, idTok "b", kTok .EQUAL, idTok "c", kTok .SEMICOLON]

/-- Tokens of `a = c;`. -/
def c7GoodToks : List Token :=
  [idTok "a", kTok .EQUAL, idTok "c", kTok .SEMICOLON]

/-- C7: if, after the prefix/infix loop of `parse_precedence`, `can_assign`
is still true and the current token is `=`, the compiler consumes it and
reports "Invalid assignment target." (first conjunct — `parsePrecedence`
runs `assignTargetCheck canAssign` as its final step); in particular
`a + b = c;` reports exactly that error, while `a = c;` compiles the `=`
as an assignment (`SET_GLOBAL`) and reports nothing. -/
theorem C7_invalid_assignment_target :
    (∀ st : St, st.cur.ttype = .EQUAL →
      assignTargetCheck true st = error msgInvalidAssign (advance st)) ∧
    (compile 30 c7BadToks).2.errors.map (fun e => e.msg) =
      [msgInvalidAssign] ∧
    (compile 30 c7GoodToks).2.errors = [] ∧
    fnCode (((compile 30 c7GoodToks).1).getD (.str "")) =
      [.op .OP_GET_GLOBAL, .arg 1, .op .OP_SET_GLOBAL, .arg 0,
       .op .OP_POP, .op .OP_NIL, .op .OP_RETURN] := by
  refine ⟨?_, rfl, rfl, rfl⟩
  intro st h
  unfold assignTargetCheck
  rw [matchTok_pos h]
  simp

/-- Witness for `C7_invalid_assignment_target`'s universally quantified
conjunct, at a state whose current token is `=`. -/
theorem C7_invalid_assignment_target_witness :
    assignTargetCheck true
      { toks := [idTok "c", kTok .SEMICOLON], prev := idTok "b",
        cur := kTok .EQUAL, hadError := false, panicMode := false,
        errors := [], comps := [dComp], classes := [] } =
      error msgInvalidAssign (advance
      { toks := [idTok "c", kTok .SEMICOLON], prev := idTok "b",
        cur := kTok .EQUAL, hadError := false, panicMode := false,
        errors := [], comps := [dComp], classes := [] }) :=
  C7_invalid_assignment_target.1 _ rfl

/-! ### C10: global self-reference is legal and late-bound -/

/-- Tokens of `var a = a;` at global scope. -/
def c10Toks : List Token :=
  [kTok .VAR, idTok "a", kTok .EQUAL, idTok "a", kTok .SEMICOLON]

/-- C10: at global scope `var a = a;` compiles without error — the
initializer's `a` resolves as a late-bound global read — and the script
chunk is `GET_GLOBAL "a"; DEFINE_GLOBAL "a"` followed by the implicit
return (constants 0 and 1 are both the string "a"). -/
theorem C10_global_self_reference :
    (compile 30 c10Toks).2.hadError = false ∧
    (compile 30 c10Toks).2.errors = [] ∧
    fnCode (((compile 30 c10Toks).1).getD (.str "")) =
      [.op .OP_GET_GLOBAL, .arg 1, .op .OP_DEFINE_GLOBAL, .arg 0,
       .op .OP_NIL, .op .OP_RETURN] ∧
    (fnConsts (((compile 30 c10Toks).1).getD (.str ""))).map
        (fun v => match v with
                  | .str s => s
                  | _ => "") = ["a", "a"] := by
  exact ⟨rfl, rfl, rfl, rfl⟩

/-! ### C2: the `compile` driver -/

/-- C2: `compile` returns `none` exactly when an error was reported
(first conjunct, over every input and fuel); the declaration loop's
continuation test is end-of-input only — reported errors never abort it
(second conjunct); and whenever the loop exits through its own test, the
end-of-input token has been consumed, so the null-or-function decision is
taken only after end of input (third conjunct). -/
theorem C2_compile_driver :
    (∀ (fuel : Nat) (toks : List Token),
      (compile fuel toks).1 = none ↔
        (compile fuel toks).2.hadError = true) ∧
    (∀ (f : Nat) (st : St), st.cur.ttype ≠ .EOF →
      compileLoop (f + 1) st = compileLoop f (declaration f st)) ∧
    (∀ (f : Nat) (st st' : St), compileLoop f st = (st', true) →
      st'.prev.ttype = .EOF) := by
  refine ⟨?_, ?_, ?_⟩
  · intro fuel toks
    unfold compile
    cases hS : compileSt fuel toks with
    | mk stA fin =>
      simp only [endCompilerSt]
      cases hE : (emitReturn stA).hadError <;> simp [hE]
  · intro f st h
    conv_lhs => rw [compileLoop]
    rw [matchTok_neg h]
    simp
  · intro f
    induction f with
    | zero =>
      intro st st' h
      rw [compileLoop] at h
      cases h
    | succ f ih =>
      intro st st' h
      rw [compileLoop] at h
      by_cases hc : st.cur.ttype = .EOF
      · rw [matchTok_pos hc] at h
        simp only [ite_true, if_pos rfl] at h
        have hst : st' = advance st := (Prod.mk.injEq _ _ _ _).mp h |>.1.symm
        rw [hst, advance_prev, hc]
      · rw [matchTok_neg hc] at h
        simp only [ite_false] at h
        exact ih _ _ h

/-- A state in the middle of the driver loop, current token `;`. -/
def c2MidSt : St := advance (compileInit [kTok .SEMICOLON])

/-- A state at the driver loop's start on empty input. -/
def c2EndSt : St := advance (compileInit [])

/-- Witness for `C2_compile_driver` at concrete inputs. -/
theorem C2_compile_driver_witness :
    ((compile 3 [kTok .SEMICOLON]).1 = none ↔
      (compile 3 [kTok .SEMICOLON]).2.hadError = true) ∧
    compileLoop 2 c2MidSt = compileLoop 1 (declaration 1 c2MidSt) ∧
    (compileLoop 1 c2EndSt).1.prev.ttype = .EOF := by
  refine ⟨C2_compile_driver.1 3 [kTok .SEMICOLON],
          C2_compile_driver.2.1 1 c2MidSt (by decide),
          C2_compile_driver.2.2 1 c2EndSt (compileLoop 1 c2EndSt).1 ?_⟩
  rfl

/-! ### C1: the duplicated tail in `super_` -/

/-- Tokens of `class A {} class B < A { greet() { super.greet(); } }`. -/
def c1Toks : List Token :=
  [kTok .CLASS, idTok "A", kTok .LEFT_BRACE, kTok .RIGHT_BRACE,
   kTok .CLASS, idTok "B", kTok .LESS, idTok "A", kTok .LEFT_BRACE,
   idTok "greet", kTok .LEFT_PAREN, kTok .RIGHT_PAREN, kTok .LEFT_BRACE,
   ⟨.SUPER, "super", 1⟩, kTok .DOT, idTok "greet", kTok .LEFT_PAREN,
   kTok .RIGHT_PAREN, kTok .SEMICOLON, kTok .RIGHT_BRACE, kTok .RIGHT_BRACE]

/-- The chunk of the compiled `greet` method (constant 7 of the script
chunk holds its function object). -/
def c1MethodCode : List Instr :=
  fnCode ((fnConsts (((compile 60 c1Toks).1).getD (.str ""))).getD 7 (.str ""))

/-- C1: evaluating the source's `super_` on `super.greet()` inside a
method of a class with a superclass.  The compiled method body is
`this`-load, `super`-load, `SUPER_INVOKE greet 0` — and then the
duplicated unconditional tail `super`-load, `GET_SUPER greet` — before
the expression statement's `POP` and the implicit return.  In particular
the body is not the claimed sequence that stops after `SUPER_INVOKE`
(third conjunct), because further bytes are emitted for the super
expression after the chosen path.  The whole program compiles without
any reported error (first conjunct). -/
theorem C1_super_duplicated_tail :
    (compile 60 c1Toks).2.hadError = false ∧
    c1MethodCode =
      [.op .OP_GET_LOCAL, .arg 0, .op .OP_GET_UPVALUE, .arg 0,
       .op .OP_SUPER_INVOKE, .arg 0, .arg 0,
       .op .OP_GET_UPVALUE, .arg 0, .op .OP_GET_SUPER, .arg 0,
       .op .OP_POP, .op .OP_NIL, .op .OP_RETURN] ∧
    c1MethodCode ≠
      [.op .OP_GET_LOCAL, .arg 0, .op .OP_GET_UPVALUE, .arg 0,
       .op .OP_SUPER_INVOKE, .arg 0, .arg 0,
       .op .OP_POP, .op .OP_NIL, .op .OP_RETURN] := by
  refine ⟨rfl, rfl, ?_⟩
  intro h
  exact absurd (rfl.trans h) (by decide)
